import Mathlib

/-!
Shallow embedding of the land-subdivision editor's geometry and editing
kernel, translated from the JavaScript source of the repository, together
with theorems settling the specification's claims.

Modelling conventions:
- JavaScript numbers are modelled as exact rationals wherever the code only
  adds, multiplies, divides and compares them; the square roots that the code
  feeds into comparisons are eliminated by monotonicity of the real square
  root (each such place carries a comment), and the one place where sums of
  square roots are compared (arc lengths in the frontage resolver) is
  modelled over the reals with Real.sqrt.
- Math.round rounds to the nearest integer with ties toward positive
  infinity; Number(x.toFixed(2)) rounds to the nearest multiple of 1/100
  with ties toward the larger value.  Both are modelled with the floor
  function.
- JavaScript stable sorts with a numeric comparator cmp are modelled by
  List.insertionSort with the relation fun a b => cmp a b ≤ 0, which is the
  unique stable sort for that total preorder.
-/

namespace LandSubdiv

/-- A point of the scene plane: a pair of rational coordinates. -/
abbrev Pt := ℚ × ℚ

/-- The epsilon 1e-9 used by ptsEqual, orient and onSegment. -/
def EPS9 : ℚ := 1 / 1000000000

/-- The epsilon 1e-12 used as degenerate-segment and degenerate-area guard. -/
def EPS12 : ℚ := 1 / 1000000000000

/-- Squared distance between two points (the source's dist2). -/
def dist2 (a b : Pt) : ℚ :=
  (a.1 - b.1) * (a.1 - b.1) + (a.2 - b.2) * (a.2 - b.2)

/-- Models the source comparison Math.sqrt m <= t for m ≥ 0: it holds
exactly when 0 ≤ t and m ≤ t·t. -/
def sqrtLE (m t : ℚ) : Bool :=
  decide (0 ≤ t) && decide (m ≤ t * t)

/-- ptsEqual with its default epsilon 1e-9. -/
def ptsEqual (a b : Pt) : Bool :=
  decide (|a.1 - b.1| ≤ EPS9) && decide (|a.2 - b.2| ≤ EPS9)

/-- stripClosingDuplicate: drop the last point when it repeats the first. -/
def stripClosingDuplicate (poly : List Pt) : List Pt :=
  if poly.length < 2 then poly
  else if ptsEqual (poly.headD (0, 0)) (poly.getLastD (0, 0)) then poly.dropLast
  else poly

/-- The cross product used by the convex hull (the source's underscore-cross). -/
def hullCross (o a b : Pt) : ℚ :=
  (a.1 - o.1) * (b.2 - o.2) - (a.2 - o.2) * (b.1 - o.1)

/-- The sort relation of convexHull: the JS comparator orders by x and
breaks ties by y, so comparator ≤ 0 is lexicographic order. -/
def lexLe (a b : Pt) : Prop :=
  a.1 < b.1 ∨ (a.1 = b.1 ∧ a.2 ≤ b.2)

instance : DecidableRel lexLe := fun a b => by
  unfold lexLe
  infer_instance

/-- One step of the monotone-chain loop: pop while the last two chain points
and the new point make a non-left turn, then push.  The chain is kept in
reverse order (most recent point first). -/
def hullExtend : List Pt → Pt → List Pt
  | b :: a :: rest, pt =>
      if hullCross a b pt ≤ 0 then hullExtend (a :: rest) pt else pt :: b :: a :: rest
  | ch, pt => pt :: ch

/-- convexHull: strip a duplicate closing point, then monotone chain over
the lexicographically sorted points; inputs of at most one point after
stripping are returned as they are. -/
def convexHull (points : List Pt) : List Pt :=
  let pts := stripClosingDuplicate points
  if pts.length ≤ 1 then pts
  else
    let p := List.insertionSort lexLe pts
    let lower := (p.foldl hullExtend []).reverse
    let upper := (p.reverse.foldl hullExtend []).reverse
    lower.dropLast ++ upper.dropLast

/-- Result record of pointSegProjection: clamped projection point, squared
distance to it, and the clamped parameter t. -/
structure ProjInfo where
  proj : Pt
  d2 : ℚ
  t : ℚ
deriving DecidableEq

/-- pointSegProjection: clamped projection of p onto segment a-b, with the
1e-12 guard for degenerate segments. -/
def pointSegProjection (p a b : Pt) : ProjInfo :=
  let vx := b.1 - a.1
  let vy := b.2 - a.2
  let wx := p.1 - a.1
  let wy := p.2 - a.2
  let vv := vx * vx + vy * vy
  if vv ≤ EPS12 then ⟨a, dist2 p a, 0⟩
  else
    let t := max 0 (min 1 ((wx * vx + wy * vy) / vv))
    let proj : Pt := (a.1 + t * vx, a.2 + t * vy)
    ⟨proj, dist2 p proj, t⟩

/-- orient: sign of the cross product of (b-a) and (c-a), flattened to 0
when its absolute value is below 1e-9. -/
def orient (a b c : Pt) : Int :=
  let cr := (b.1 - a.1) * (c.2 - a.2) - (b.2 - a.2) * (c.1 - a.1)
  if |cr| < EPS9 then 0 else if 0 < cr then 1 else -1

/-- onSegment: p lies in the bounding box of a-b inflated by 1e-9 and is
within 1e-9 of the line through a and b. -/
def onSegment (a b p : Pt) : Bool :=
  let minx := min a.1 b.1 - EPS9
  let maxx := max a.1 b.1 + EPS9
  let miny := min a.2 b.2 - EPS9
  let maxy := max a.2 b.2 + EPS9
  if p.1 < minx ∨ maxx < p.1 ∨ p.2 < miny ∨ maxy < p.2 then false
  else decide (|(b.1 - a.1) * (p.2 - a.2) - (b.2 - a.2) * (p.1 - a.1)| < EPS9)

/-- segmentsIntersectOrTouch: orientation test plus the collinear
on-segment cases, true for crossing, overlap or endpoint touching. -/
def segmentsIntersectOrTouch (a b c d : Pt) : Bool :=
  let o1 := orient a b c
  let o2 := orient a b d
  let o3 := orient c d a
  let o4 := orient c d b
  (decide (o1 ≠ o2) && decide (o3 ≠ o4)) ||
  (decide (o1 = 0) && onSegment a b c) ||
  (decide (o2 = 0) && onSegment a b d) ||
  (decide (o3 = 0) && onSegment c d a) ||
  (decide (o4 = 0) && onSegment c d b)

/-- The square of the source's segmentDistance (which returns the square
root of this minimum); every use compares it against a tolerance and is
modelled with sqrtLE. -/
def segmentDistance2 (a b c d : Pt) : ℚ :=
  min (min (pointSegProjection a c d).d2 (pointSegProjection b c d).d2)
      (min (pointSegProjection c a b).d2 (pointSegProjection d a b).d2)

/-- edgesFromPolygon: consecutive edges, plus the wrap-around edge for a
closed polygon with at least three vertices. -/
def edgesFromPolygon (poly : List Pt) (closed : Bool) : List (Pt × Pt) :=
  if poly.length < 2 then []
  else
    poly.zip poly.tail ++
      (if closed && decide (3 ≤ poly.length) then [(poly.getLastD (0, 0), poly.headD (0, 0))] else [])

/-- The indexed loop of nearestBoundaryIndex: carry the best index and the
best squared distance (none plays the role of the initial Infinity). -/
def nearestGo (pt : Pt) : List Pt → ℕ → Int × Option ℚ → Int × Option ℚ
  | [], _, best => best
  | q :: rest, i, best =>
      nearestGo pt rest (i + 1)
        (match best.2 with
         | none => ((i : Int), some (dist2 pt q))
         | some bd => if dist2 pt q < bd then ((i : Int), some (dist2 pt q)) else best)

/-- nearestBoundaryIndex: index of the boundary vertex nearest to pt, the
first such index on ties, and -1 for an empty boundary.  The source compares
square-root distances with a strict inequality, which is equivalent to the
strict inequality on the squared distances used here. -/
def nearestBoundaryIndex (pt : Pt) (boundary : List Pt) : Int :=
  (nearestGo pt boundary 0 (-1, none)).1

/-- Fuel-indexed walk of the source's while loop in pathSegsBetweenIndices:
step from i to (i+1) mod n, collecting edges, until iTo is reached. -/
def pathSegsGo (boundary : List Pt) (iTo : ℕ) : ℕ → ℕ → List (Pt × Pt)
  | i, 0 => if i = iTo then [] else []
  | i, fuel + 1 =>
      if i = iTo then []
      else
        let j := (i + 1) % boundary.length
        (boundary.getD i (0, 0), boundary.getD j (0, 0)) :: pathSegsGo boundary iTo j fuel

/-- pathSegsBetweenIndices: the source loop terminates in fewer than
boundary.length steps for the in-range distinct indices produced by
nearestBoundaryIndex, so that much fuel reproduces it exactly. -/
def pathSegsBetweenIndices (boundary : List Pt) (iFrom iTo : ℕ) : List (Pt × Pt) :=
  pathSegsGo boundary iTo iFrom boundary.length

/-- Total length of a list of segments (the source sums Math.hypot values,
so this one genuinely lives in the reals). -/
noncomputable def pathLen (segs : List (Pt × Pt)) : ℝ :=
  (segs.map fun s =>
    Real.sqrt (((s.2.1 - s.1.1 : ℚ) : ℝ) ^ 2 + ((s.2.2 - s.1.2 : ℚ) : ℝ) ^ 2)).sum

/-- An internal road of the scene: road_id, polygon, optional user width. -/
structure InternalRoad where
  road_id : String
  polygon : List Pt
  width : Option ℚ
deriving DecidableEq

/-- A public road: road_id, optional width, ordered entry points. -/
structure PublicRoad where
  road_id : String
  width : Option ℚ
  entry_points : List Pt
deriving DecidableEq

/-- A lot: optional explicit lot_id and its polygon. -/
structure Lot where
  lot_id : Option String
  polygon : List Pt
deriving DecidableEq

/-- The context record handed to computeFrontRoadForLot. -/
structure FrontageCtx where
  boundary : List Pt
  boundaryClosed : Bool
  publicRoads : List PublicRoad
  internalRoads : List InternalRoad
deriving DecidableEq

/-- The edge-pair test shared by both frontage phases: some lot edge
intersects/touches some road edge, or (only when the tolerance is positive)
lies within the tolerance of one. -/
def touchPred (lotEdges roadEdges : List (Pt × Pt)) (tolUnits : ℚ) : Bool :=
  lotEdges.any fun ab => roadEdges.any fun cd =>
    segmentsIntersectOrTouch ab.1 ab.2 cd.1 cd.2 ||
    (decide (0 < tolUnits) && sqrtLE (segmentDistance2 ab.1 ab.2 cd.1 cd.2) tolUnits)

/-- The per-internal-road predicate of the first frontage phase. -/
def internalMatch (lotEdges : List (Pt × Pt)) (tolUnits : ℚ) (r : InternalRoad) : Bool :=
  touchPred lotEdges (edgesFromPolygon r.polygon true) tolUnits

/-- The public-frontage arc of a public road: boundary vertices nearest to
its first two entry points, and the shorter of the two boundary walks
between them; none when there are fewer than two entry points or the two
nearest indices coincide (or the boundary is empty). -/
noncomputable def publicFrontageSegs (boundary : List Pt) (pr : PublicRoad) : Option (List (Pt × Pt)) :=
  match pr.entry_points with
  | e0 :: e1 :: _ =>
      let iA := nearestBoundaryIndex e0 boundary
      let iB := nearestBoundaryIndex e1 boundary
      if iA = -1 ∨ iB = -1 ∨ iA = iB then none
      else
        let segsAB := pathSegsBetweenIndices boundary iA.toNat iB.toNat
        let segsBA := pathSegsBetweenIndices boundary iB.toNat iA.toNat
        some (if pathLen segsAB ≤ pathLen segsBA then segsAB else segsBA)
  | _ => none

/-- The per-public-road predicate of the second frontage phase. -/
noncomputable def publicMatch (lotEdges : List (Pt × Pt)) (boundary : List Pt)
    (tolUnits : ℚ) (pr : PublicRoad) : Bool :=
  match publicFrontageSegs boundary pr with
  | none => false
  | some pubSegs => touchPred lotEdges pubSegs tolUnits

/-- computeFrontRoadForLot: internal roads in list order first, then (only
for a closed boundary with at least three points) public roads in list
order via their public-frontage arcs, else none. -/
noncomputable def computeFrontRoadForLot (lotPoly : List Pt) (ctx : FrontageCtx)
    (tolUnits : ℚ) : Option String :=
  if lotPoly.length < 3 then none
  else
    let lotEdges := edgesFromPolygon lotPoly true
    match ctx.internalRoads.find? (internalMatch lotEdges tolUnits) with
    | some r => some r.road_id
    | none =>
        if ctx.boundaryClosed && decide (3 ≤ ctx.boundary.length) then
          match ctx.publicRoads.find? (publicMatch lotEdges ctx.boundary tolUnits) with
          | some pr => some pr.road_id
          | none => none
        else none

/-- A history snapshot: exactly the five persistent fields that
makeSnapshot deep-copies (transient fields are excluded). -/
structure Snapshot where
  boundary : List Pt
  boundaryClosed : Bool
  publicRoads : List PublicRoad
  internalRoads : List InternalRoad
  lots : List Lot
deriving DecidableEq

/-- The mutable application state relevant to history and deletion: the
five persistent fields plus the undo and redo stacks (history and future in
the source). -/
structure AppState where
  boundary : List Pt
  boundaryClosed : Bool
  publicRoads : List PublicRoad
  internalRoads : List InternalRoad
  lots : List Lot
  history : List Snapshot
  future : List Snapshot
deriving DecidableEq

/-- makeSnapshot: copy the five persistent fields. -/
def makeSnapshot (s : AppState) : Snapshot :=
  ⟨s.boundary, s.boundaryClosed, s.publicRoads, s.internalRoads, s.lots⟩

/-- restoreSnapshot: overwrite the five persistent fields from a snapshot. -/
def restoreSnapshot (s : AppState) (t : Snapshot) : AppState :=
  { s with boundary := t.boundary, boundaryClosed := t.boundaryClosed,
           publicRoads := t.publicRoads, internalRoads := t.internalRoads,
           lots := t.lots }

/-- pushHistory: append the current snapshot to the undo stack (its top is
the last element) and clear the redo stack. -/
def pushHistory (s : AppState) : AppState :=
  { s with history := s.history ++ [makeSnapshot s], future := [] }

/-- undoHistory: when the undo stack is nonempty, pop its top, push the
current snapshot onto the front of the redo stack, and restore the popped
snapshot. -/
def undoHistory (s : AppState) : AppState :=
  match s.history.getLast? with
  | none => s
  | some prev =>
      { restoreSnapshot s prev with
          history := s.history.dropLast,
          future := makeSnapshot s :: s.future }

/-- The entity kinds a selection can reference in the delete handlers. -/
inductive EntityKind
  | boundary
  | internal
  | lot
  | publicEP
deriving DecidableEq

/-- The setLots updater of deleteEdge: remove vertex (edgeIndex+1) mod n of
lot number index; a result with fewer than three vertices removes the whole
lot.  An out-of-range index is outside the source's domain (it would throw)
and is modelled as a no-op. -/
def deleteEdgeLots (ls : List Lot) (index eIdx : ℕ) : List Lot :=
  match ls[index]? with
  | none => ls
  | some lo =>
      if lo.polygon.length < 3 then ls
      else
        let poly2 := lo.polygon.eraseIdx ((eIdx + 1) % lo.polygon.length)
        if poly2.length < 3 then ls.eraseIdx index
        else ls.set index { lo with polygon := poly2 }

/-- The setInternalRoads updater of deleteEdge, same shape as for lots. -/
def deleteEdgeRoads (rs : List InternalRoad) (index eIdx : ℕ) : List InternalRoad :=
  match rs[index]? with
  | none => rs
  | some r =>
      if r.polygon.length < 3 then rs
      else
        let poly2 := r.polygon.eraseIdx ((eIdx + 1) % r.polygon.length)
        if poly2.length < 3 then rs.eraseIdx index
        else rs.set index { r with polygon := poly2 }

/-- deleteEdge: push a history snapshot, then collapse the selected edge by
removing its successor vertex; for the boundary a collapse below three
vertices empties the boundary and marks it open; public entry points have
no edges.  React batches the state updates of one handler, and all updater
closures read the same pre-event field values, so sequential composition of
the pure functions models it exactly. -/
def deleteEdge (s : AppState) (kind : EntityKind) (index eIdx : ℕ) : AppState :=
  let s1 := pushHistory s
  match kind with
  | EntityKind.publicEP => s1
  | EntityKind.lot => { s1 with lots := deleteEdgeLots s1.lots index eIdx }
  | EntityKind.internal => { s1 with internalRoads := deleteEdgeRoads s1.internalRoads index eIdx }
  | EntityKind.boundary =>
      if s1.boundary.length < 3 then s1
      else
        let poly2 := s1.boundary.eraseIdx ((eIdx + 1) % s1.boundary.length)
        if poly2.length < 3 then { s1 with boundary := [], boundaryClosed := false }
        else { s1 with boundary := poly2, boundaryClosed := true }

/-- The edge branch of onDeleteSelection: it pushes history itself and then
calls deleteEdge, which pushes history again. -/
def onDeleteSelectionEdge (s : AppState) (kind : EntityKind) (index eIdx : ℕ) : AppState :=
  deleteEdge (pushHistory s) kind index eIdx

/-- Math.round: nearest integer, ties toward positive infinity. -/
def jsRound (x : ℚ) : ℤ := ⌊x + 1 / 2⌋

/-- Number(x.toFixed(2)): nearest multiple of 1/100, ties to the larger. -/
def round2 (x : ℚ) : ℚ := (⌊x * 100 + 1 / 2⌋ : ℤ) / 100

/-- Number(x.toFixed(1)): nearest multiple of 1/10, ties to the larger. -/
def round1 (x : ℚ) : ℚ := (⌊x * 10 + 1 / 2⌋ : ℤ) / 10

/-- Both coordinates rounded as by toFixed(2). -/
def round2Pt (p : Pt) : Pt := (round2 p.1, round2 p.2)

/-- axisAlign: keep the previous point's y when |dx| ≥ |dy| (horizontal
lock, which ties choose), else its x. -/
def axisAlign (prev : Option Pt) (p : Pt) : Pt :=
  match prev with
  | none => p
  | some q => if |p.2 - q.2| ≤ |p.1 - q.1| then (p.1, q.2) else (q.1, p.2)

/-- snapToGrid: round to the nearest grid intersection (coordinates then
rounded as by toFixed(2)); in strict mode always take it, otherwise only
within the tolerance.  A non-positive step disables the snap. -/
def snapToGrid (p : Pt) (step : ℚ) (origin : Pt) (tolUnits : ℚ) (always : Bool) : Pt :=
  if step ≤ 0 then p
  else
    let g : Pt := (round2 ((jsRound ((p.1 - origin.1) / step) : ℤ) * step + origin.1),
                   round2 ((jsRound ((p.2 - origin.2) / step) : ℤ) * step + origin.2))
    if always then g
    else if sqrtLE (dist2 p g) tolUnits then g else p

/-- snapToNearestSegment: globally nearest clamped projection of p onto the
segments (first wins ties, strict improvement only), accepted within the
tolerance; none for an empty segment list or a too-distant projection. -/
def snapToNearestSegment (p : Pt) (segments : List (Pt × Pt)) (tolUnits : ℚ) : Option Pt :=
  match segments.foldl
      (fun best s =>
        let info := pointSegProjection p s.1 s.2
        match best with
        | none => some info
        | some b => if info.d2 < b.d2 then some info else best)
      none with
  | none => none
  | some b => if sqrtLE b.d2 tolUnits then some b.proj else none

/-- snapToPools: nearest point over all pools in order (first wins ties);
within the tolerance it replaces p, otherwise p is kept. -/
def snapToPools (p : Pt) (pools : List (List Pt)) (tolUnits : ℚ) : Pt :=
  match pools.foldl
      (fun best pool =>
        pool.foldl
          (fun best q =>
            match best with
            | none => some (q, dist2 p q)
            | some b => if dist2 p q < b.2 then some (q, dist2 p q) else best)
          best)
      none with
  | none => p
  | some b => if sqrtLE b.2 tolUnits then b.1 else p

/-- collectSegments: boundary edges (closed only when the boundary is),
in-progress path edges (open), and every internal-road and lot polygon's
closed edges; its local addSegs has the same body as edgesFromPolygon. -/
def collectSegments (boundary : List Pt) (boundaryClosed : Bool) (current : List Pt)
    (internalRoads : List InternalRoad) (lots : List Lot) : List (Pt × Pt) :=
  edgesFromPolygon boundary boundaryClosed ++
  edgesFromPolygon current false ++
  internalRoads.flatMap (fun r => edgesFromPolygon r.polygon true) ++
  lots.flatMap (fun l => edgesFromPolygon l.polygon true)

/-- The editor's draw/edit modes. -/
inductive Mode
  | boundary
  | publicRoad
  | internalRoad
  | lot
  | select
deriving DecidableEq

/-- All state computePreviewPoint reads besides the raw pointer point. -/
structure PreviewEnv where
  mode : Mode
  boundary : List Pt
  boundaryClosed : Bool
  current : List Pt
  publicRoads : List PublicRoad
  activePublicIdx : Int
  internalRoads : List InternalRoad
  lots : List Lot
  gridSnap : Bool
  gridStep : ℚ
  gridOrigin : Pt
  gridTol : ℚ
  gridStrict : Bool
  lineTol : ℚ
  snapTol : ℚ
  avgUP : ℚ
  shiftKey : Bool
deriving DecidableEq

/-- The axis-lock anchor: last in-progress point in boundary (while open),
internal-road and lot modes, last entry point of the active public road in
public-road mode, otherwise none. -/
def previewPrev (P : PreviewEnv) : Option Pt :=
  if P.mode = Mode.boundary then
    if !P.boundaryClosed && !P.current.isEmpty then P.current.getLast? else none
  else if P.mode = Mode.internalRoad ∨ P.mode = Mode.lot then
    if !P.current.isEmpty then P.current.getLast? else none
  else if P.mode = Mode.publicRoad ∧ 0 ≤ P.activePublicIdx then
    match P.publicRoads[P.activePublicIdx.toNat]? with
    | some act => act.entry_points.getLast?
    | none => none
  else none

/-- The pointer point after the optional axis lock (the source's aligned). -/
def alignedPt (P : PreviewEnv) (raw0 : Pt) : Pt :=
  match previewPrev P with
  | some prv => if P.shiftKey && !(P.mode = Mode.select : Bool) then axisAlign (some prv) raw0 else raw0
  | none => raw0

/-- The grid-phase point p1: the grid candidate when grid snapping is on,
else the aligned point unchanged. -/
def gridPt (P : PreviewEnv) (raw0 : Pt) : Pt :=
  let aligned := alignedPt P raw0
  if P.gridSnap then snapToGrid aligned P.gridStep P.gridOrigin (P.gridTol * P.avgUP) P.gridStrict
  else aligned

/-- The segment pool computePreviewPoint projects onto. -/
def previewSegments (P : PreviewEnv) : List (Pt × Pt) :=
  collectSegments P.boundary P.boundaryClosed P.current P.internalRoads P.lots

/-- The vertex pools of the final snap/merge step: boundary vertices, every
public road's entry points, the in-progress path without its last point,
and every internal-road and lot polygon's vertices. -/
def previewPools (P : PreviewEnv) : List (List Pt) :=
  (if P.boundary.isEmpty then [] else [P.boundary]) ++
  P.publicRoads.filterMap (fun pr => if pr.entry_points.isEmpty then none else some pr.entry_points) ++
  (if P.current.dropLast.isEmpty then [] else [P.current.dropLast]) ++
  P.internalRoads.map (fun r => r.polygon) ++
  P.lots.map (fun l => l.polygon)

/-- computePreviewPoint: axis lock, then grid candidate, then line
candidate (kept only if at least as close to the aligned point as the grid
candidate, comparing the source's square-root distances, equivalently the
squared distances used here; the line candidate is rounded as by
toFixed(2)), then the vertex snap/merge.  The source file contains two
near-duplicate revisions of this function; both share this grid/line
choice verbatim, and the anchor and pool construction embedded here follow
the later revision. -/
def computePreviewPoint (P : PreviewEnv) (raw0 : Pt) : Pt :=
  let aligned := alignedPt P raw0
  let p1 := gridPt P raw0
  let segments := previewSegments P
  let p2 :=
    if segments.isEmpty then p1
    else
      match snapToNearestSegment aligned segments (P.lineTol * P.avgUP) with
      | some proj => if dist2 aligned proj ≤ dist2 aligned p1 then round2Pt proj else p1
      | none => p1
  snapToPools p2 (previewPools P) (P.snapTol * P.avgUP)

/-- The cross term x1*y2 - x2*y1 accumulated by the area loops. -/
def cross2 (p q : Pt) : ℚ := p.1 * q.2 - q.1 * p.2

/-- Sum of the cross terms of consecutive pairs (no wrap-around). -/
def chainCrossSum : List Pt → ℚ
  | a :: b :: r => cross2 a b + chainCrossSum (b :: r)
  | _ => 0

/-- Sum of the cross terms over all cyclic pairs (p_i, p_(i+1 mod n)),
exactly the loop of signedArea and shoelaceArea. -/
def wrapCrossSum (l : List Pt) : ℚ :=
  match l with
  | [] => 0
  | h :: t => chainCrossSum (h :: t) + cross2 ((h :: t).getLastD (0, 0)) h

/-- signedArea: half the cyclic cross sum; 0 below three points. -/
def signedArea (poly : List Pt) : ℚ :=
  if poly.length < 3 then 0 else wrapCrossSum poly / 2

/-- shoelaceArea: unsigned variant of signedArea. -/
def shoelaceArea (points : List Pt) : ℚ :=
  if points.length < 3 then 0 else |wrapCrossSum points| / 2

/-- Arithmetic mean of the points (the centroid fallback). -/
def meanPt (points : List Pt) : Pt :=
  ((points.map Prod.fst).sum / points.length, (points.map Prod.snd).sum / points.length)

/-- The three accumulators of polygonCentroid's loop over consecutive
pairs: cross sum, (x1+x2)*cross sum, (y1+y2)*cross sum. -/
def centroidChainSums : List Pt → ℚ × ℚ × ℚ
  | a :: b :: r =>
      let c := cross2 a b
      let rest := centroidChainSums (b :: r)
      (c + rest.1, (a.1 + b.1) * c + rest.2.1, (a.2 + b.2) * c + rest.2.2)
  | _ => (0, 0, 0)

/-- The same accumulators including the wrap-around pair. -/
def centroidWrapSums (l : List Pt) : ℚ × ℚ × ℚ :=
  match l with
  | [] => (0, 0, 0)
  | h :: t =>
      let rest := centroidChainSums (h :: t)
      let lastp := (h :: t).getLastD (0, 0)
      let c := cross2 lastp h
      (rest.1 + c, rest.2.1 + (lastp.1 + h.1) * c, rest.2.2 + (lastp.2 + h.2) * c)

/-- polygonCentroid: area-weighted centroid, falling back to the vertex
mean for fewer than three points or a numerically vanishing area, and to
(0,0) for no points at all. -/
def polygonCentroid (points : List Pt) : Pt :=
  if points.length < 3 then
    if points.isEmpty then (0, 0) else meanPt points
  else
    let sums := centroidWrapSums points
    let a := sums.1 / 2
    if |a| < EPS12 then meanPt points
    else (sums.2.1 / (6 * a), sums.2.2 / (6 * a))

/-- Angular class of a vector for the exact atan2 comparison: 0 for angles
in (-pi,0) (lower half-plane), 1 for angle 0 (positive x-axis and the zero
vector, whose atan2 is 0), 2 for angles in (0,pi), 3 for angle pi. -/
def angClass (u : Pt) : ℕ :=
  if u.2 < 0 then 0
  else if u.2 = 0 ∧ 0 ≤ u.1 then 1
  else if 0 < u.2 then 2
  else 3

/-- Cross product of two vectors. -/
def crossV (u v : Pt) : ℚ := u.1 * v.2 - u.2 * v.1

/-- Exact-rational rendering of atan2(u) < atan2(v): the classes order the
four angular regions atan2 distinguishes, and inside the open half-planes
(classes 0 and 2, angle intervals of width pi) the sign of the cross
product decides. -/
def angLt (u v : Pt) : Prop :=
  angClass u < angClass v ∨
  (angClass u = angClass v ∧ (angClass u = 0 ∨ angClass u = 2) ∧ 0 < crossV u v)

/-- Exact-rational rendering of atan2(u) = atan2(v). -/
def angEq (u v : Pt) : Prop :=
  angClass u = angClass v ∧ (angClass u = 1 ∨ angClass u = 3 ∨ crossV u v = 0)

instance : DecidableRel angLt := fun u v => by
  unfold angLt
  infer_instance

instance : DecidableRel angEq := fun u v => by
  unfold angEq
  infer_instance

/-- The sort relation of normalizeCCW around centre c: the JS comparator
sorts by atan2 angle and breaks exact angle ties by squared radius, so
comparator ≤ 0 is this relation. -/
def angRadLe (c : Pt) (a b : Pt) : Prop :=
  angLt (a.1 - c.1, a.2 - c.2) (b.1 - c.1, b.2 - c.2) ∨
  (angEq (a.1 - c.1, a.2 - c.2) (b.1 - c.1, b.2 - c.2) ∧ dist2 a c ≤ dist2 b c)

instance (c : Pt) : DecidableRel (angRadLe c) := fun a b => by
  unfold angRadLe
  infer_instance

/-- normalizeCCW: strip a closing duplicate, sort by angle around the
centroid (radius on ties), then reverse unless the signed area is
positive. -/
def normalizeCCW (points : List Pt) : List Pt :=
  let poly := stripClosingDuplicate points
  if poly.length < 3 then poly
  else
    let c := polygonCentroid poly
    let sorted := List.insertionSort (angRadLe c) poly
    if 0 < signedArea sorted then sorted else sorted.reverse

/-- ensureClosedLoop: append the first point when the polygon has at least
three points and its last point does not already repeat (within 1e-9) the
first. -/
def ensureClosedLoop (polyOpen : List Pt) : List Pt :=
  if polyOpen.length < 3 then polyOpen
  else if ptsEqual (polyOpen.headD (0, 0)) (polyOpen.getLastD (0, 0)) then polyOpen
  else polyOpen ++ [polyOpen.headD (0, 0)]

/-- An entry of the lotInfos intermediate list built by exportJSON. -/
structure LotInfo where
  id : String
  polygonOpen : List Pt
  area : ℚ
  front : Option String
deriving DecidableEq

/-- A serialized public road of the export's input.roads. -/
structure PublicRoadOut where
  road_id : String
  is_public : Bool
  width : ℚ
  entry_points : List Pt
  connected_to_public_road : Option Bool
  road_to_lot_mapping : List String
deriving DecidableEq

/-- A serialized internal road of the export's output.internal_roads. -/
structure InternalRoadOut where
  road_id : String
  polygon : List Pt
  is_public : Bool
  width : ℚ
  connected_to_public_road : Option Bool
  road_to_lot_mapping : List String
deriving DecidableEq

/-- A serialized lot of the export's output.lots. -/
structure LotOut where
  lot_id : String
  polygon : List Pt
  area : ℚ
  front_road : Option String
deriving DecidableEq

/-- The whole exported document (input and output sections flattened). -/
structure ExportDoc where
  land_id : String
  boundary : List Pt
  roads : List PublicRoadOut
  internal_roads : List InternalRoadOut
  lots : List LotOut
deriving DecidableEq

/-- The scene state exportJSON reads. -/
structure Scene where
  landId : String
  boundary : List Pt
  publicRoads : List PublicRoad
  internalRoads : List InternalRoad
  lots : List Lot
  avgUP : ℚ
  defaultPublicWidth : ℚ
  internalWidthDefault : ℚ
deriving DecidableEq

/-- String(n).padStart(2, "0") for the generated lot ids. -/
def pad2 (n : ℕ) : String :=
  if (toString n).length < 2 then "0" ++ toString n else toString n

/-- The lotInfos list of exportJSON: generated or explicit id, normalized
open polygon, rounded area, and the computed front road. -/
noncomputable def exportLotInfos (sc : Scene) (ctx : FrontageCtx) (tolUnits : ℚ) : List LotInfo :=
  sc.lots.enum.map fun il =>
    let polyOpen := normalizeCCW il.2.polygon
    { id := il.2.lot_id.getD (sc.landId ++ "-" ++ pad2 (il.1 + 1)),
      polygonOpen := polyOpen,
      area := round1 (shoelaceArea polyOpen),
      front := computeFrontRoadForLot polyOpen ctx tolUnits }

/-- exportJSON: normalize the boundary, compute per-lot fronts with a
3-pixel tolerance, and serialize public roads, internal roads and lots,
deriving every road_to_lot_mapping from the lots' computed fronts. -/
noncomputable def exportJSON (sc : Scene) : ExportDoc :=
  let boundaryOpen := normalizeCCW sc.boundary
  let boundaryClosedLoop :=
    if 3 ≤ boundaryOpen.length then ensureClosedLoop boundaryOpen else boundaryOpen
  let ctx : FrontageCtx :=
    ⟨boundaryOpen, decide (3 ≤ boundaryOpen.length), sc.publicRoads, sc.internalRoads⟩
  let tolUnits := 3 * sc.avgUP
  let lotInfos := exportLotInfos sc ctx tolUnits
  { land_id := sc.landId,
    boundary := boundaryClosedLoop,
    roads := sc.publicRoads.map fun pr =>
      { road_id := pr.road_id,
        is_public := true,
        width := pr.width.getD sc.defaultPublicWidth,
        entry_points := pr.entry_points,
        connected_to_public_road := none,
        road_to_lot_mapping :=
          (lotInfos.filter fun li => li.front = some pr.road_id).map fun li => li.id },
    internal_roads := sc.internalRoads.map fun r =>
      let polyOpen := normalizeCCW r.polygon
      { road_id := r.road_id,
        polygon := if 3 ≤ polyOpen.length then ensureClosedLoop polyOpen else polyOpen,
        is_public := false,
        width := r.width.getD sc.internalWidthDefault,
        connected_to_public_road := some true,
        road_to_lot_mapping :=
          (lotInfos.filter fun li => li.front = some r.road_id).map fun li => li.id },
    lots := lotInfos.map fun li =>
      { lot_id := li.id,
        polygon := if 3 ≤ li.polygonOpen.length then ensureClosedLoop li.polygonOpen else li.polygonOpen,
        area := li.area,
        front_road := li.front } }

/-- All polygons a document serializes: the boundary ring, each internal
road polygon, each lot polygon. -/
def exportPolygons (doc : ExportDoc) : List (List Pt) :=
  doc.boundary :: (doc.internal_roads.map fun r => r.polygon) ++ (doc.lots.map fun lo => lo.polygon)

/-- Number(x.toFixed(2)) applied to a real intermediate value. -/
noncomputable def round2R (x : ℝ) : ℚ := (⌊x * 100 + 1 / 2⌋ : ℤ) / 100

/-- transformPoint: scale p about (cx, cy) by the factor s and round both
coordinates as by toFixed(2). -/
noncomputable def transformPoint (p : Pt) (s : ℝ) (cx cy : ℚ) : Pt :=
  (round2R ((cx : ℝ) + s * ((p.1 : ℝ) - (cx : ℝ))),
   round2R ((cy : ℝ) + s * ((p.2 : ℝ) - (cy : ℝ))))

/-- scalePolygonToArea: scale about the centroid by sqrt(target/area);
unchanged when the target or current area is not positive (the source's
isFinite guard cannot fire over exact rationals). -/
noncomputable def scalePolygonToArea (poly : List Pt) (targetArea : ℚ) : List Pt :=
  let A := shoelaceArea poly
  if targetArea ≤ 0 ∨ A ≤ 0 then poly
  else
    let s := Real.sqrt ((targetArea : ℝ) / (A : ℝ))
    let c := polygonCentroid poly
    poly.map fun pt => transformPoint pt s c.1 c.2

/-- Concrete lot used to exercise the internal-road frontage phase: a
triangle whose bottom edge lies on an internal road's top edge. -/
def lotA : List Pt := [(0, 0), (2, 0), (0, 2)]

/-- Concrete internal road sharing the edge (0,0)-(2,0) with lotA. -/
def roadA : InternalRoad := ⟨"R1", [(0, 0), (2, 0), (2, -2)], none⟩

/-- Concrete public road whose first two entry points are the first two
vertices of the square boundary below. -/
def pubA : PublicRoad := ⟨"P1", none, [(0, 0), (10, 0)]⟩

/-- Frontage context with a closed square boundary, the public road pubA
and the internal road roadA. -/
def ctxA : FrontageCtx :=
  ⟨[(0, 0), (10, 0), (10, 10), (0, 10)], true, [pubA], [roadA]⟩

/-- Concrete lot resting on the bottom edge of the square boundary. -/
def lotB : List Pt := [(2, 0), (8, 0), (8, 5), (2, 5)]

/-- Frontage context like ctxA but with no internal roads. -/
def ctxB : FrontageCtx :=
  ⟨[(0, 0), (10, 0), (10, 10), (0, 10)], true, [pubA], []⟩

/-- Preview environment for the snap-resolver claims: strict grid of step
1, one vertical boundary segment through the origin, all tolerances in
scene units (view scale 1). -/
def envA : PreviewEnv :=
  { mode := Mode.lot, boundary := [(0, -5), (0, 5)], boundaryClosed := false,
    current := [], publicRoads := [], activePublicIdx := -1,
    internalRoads := [], lots := [],
    gridSnap := true, gridStep := 1, gridOrigin := (0, 0), gridTol := 8,
    gridStrict := true, lineTol := 4, snapTol := 1, avgUP := 1,
    shiftKey := false }

/-- Preview environment with an axis-lock anchor at (0,0) (one in-progress
point, shift held) and a vertical boundary segment at x = 2, used to show
the candidate distances are measured from the post-axis-lock point. -/
def envB : PreviewEnv :=
  { mode := Mode.lot, boundary := [(2, 0), (2, 5)], boundaryClosed := false,
    current := [(0, 0)], publicRoads := [], activePublicIdx := -1,
    internalRoads := [], lots := [],
    gridSnap := true, gridStep := 1, gridOrigin := (0, 0), gridTol := 8,
    gridStrict := true, lineTol := 4, snapTol := 1, avgUP := 1,
    shiftKey := true }

/-- Application state with a four-vertex lot, a three-vertex internal road
and a three-vertex closed boundary, used to drive the deletion claims. -/
def stateA : AppState :=
  { boundary := [(20, 20), (30, 20), (20, 30)], boundaryClosed := true,
    publicRoads := [],
    internalRoads := [⟨"R9", [(0, 0), (1, 0), (0, 1)], none⟩],
    lots := [⟨some "L9", [(0, 0), (4, 0), (4, 4), (0, 4)]⟩],
    history := [], future := [] }

/-- Scene with one internal road and one lot whose first edges coincide,
used for the export-mapping claim. -/
def sceneA : Scene :=
  ⟨"LAND", [], [], [⟨"R1", [(0, 0), (2, 0), (2, -2)], none⟩],
   [⟨some "L1", [(0, 0), (2, 0), (0, 2)]⟩], 0, 8, 6⟩

/-- Scene with one internal road and no lots, used as concrete input for
the export-mapping claim. -/
def sceneD : Scene := ⟨"LAND", [], [], [⟨"R1", [(0, 0), (2, 0), (2, -2)], none⟩], [], 0, 8, 6⟩

/-- Scene with only a triangular boundary, used for the export-polygon
claim's witness. -/
def sceneB : Scene := ⟨"LAND", [(0, 0), (4, 0), (0, 4)], [], [], [], 1, 8, 6⟩

/-- Scene with a single degenerate (collinear) lot, used for the
export-polygon claim's counterexample. -/
def sceneC : Scene := ⟨"LAND", [], [], [], [⟨some "L1", [(0, 0), (1, 0), (2, 0)]⟩], 1, 8, 6⟩

/-- The canonical axis-aligned square of area 100. -/
def square100 : List Pt := [(0, 0), (10, 0), (10, 10), (0, 10)]

/-- The value scalePolygonToArea returns on square100 with target 200:
each vertex scaled by sqrt 2 about (5,5) and rounded to two decimals. -/
def square100Scaled : List Pt :=
  [(-207/100, -207/100), (1207/100, -207/100), (1207/100, 1207/100), (-207/100, 1207/100)]

/-- Popping an undo stack of the shape pre ++ [t] restores t, leaves pre,
and pushes the current snapshot onto the redo stack. -/
theorem undoHistory_concat (u : AppState) (pre : List Snapshot) (t : Snapshot)
    (h : u.history = pre ++ [t]) :
    makeSnapshot (undoHistory u) = t ∧ (undoHistory u).history = pre ∧
    (undoHistory u).future = makeSnapshot u :: u.future := by
  unfold undoHistory
  rw [h, List.getLast?_concat]
  simp [restoreSnapshot, makeSnapshot]

/-- C5: pushHistory appends the pre-change snapshot to the undo stack and
clears the redo stack; undo pops the top of the undo stack, pushes the
current persistent state onto the front of the redo stack and restores the
popped snapshot, so one undo after pushHistory followed by any mutation of
the persistent fields restores the pre-mutation persistent state. -/
theorem pushHistory_then_undo_restores (s : AppState) (t : Snapshot) :
    (pushHistory s).history = s.history ++ [makeSnapshot s] ∧
    (pushHistory s).future = [] ∧
    makeSnapshot (pushHistory s) = makeSnapshot s ∧
    makeSnapshot (undoHistory (restoreSnapshot (pushHistory s) t)) = makeSnapshot s ∧
    (undoHistory (restoreSnapshot (pushHistory s) t)).history = s.history ∧
    (undoHistory (restoreSnapshot (pushHistory s) t)).future = [t] := by
  refine ⟨rfl, rfl, rfl, ?_⟩
  have h := undoHistory_concat (restoreSnapshot (pushHistory s) t) s.history (makeSnapshot s)
    (by simp [restoreSnapshot, pushHistory])
  refine ⟨h.1, h.2.1, ?_⟩
  rw [h.2.2]
  simp [restoreSnapshot, pushHistory, makeSnapshot]

/-- C10 (amended): deleting a selected edge runs pushHistory twice, once in
onDeleteSelection and once in deleteEdge, so one edge deletion appends two
identical pre-mutation snapshots to the undo stack; already the first undo
restores the pre-deletion persistent state, leaving the redundant duplicate
snapshot on the undo stack. -/
theorem deleteSelectionEdge_double_push (s : AppState) (k : EntityKind) (i e : ℕ) :
    (onDeleteSelectionEdge s k i e).history = s.history ++ [makeSnapshot s, makeSnapshot s] ∧
    makeSnapshot (undoHistory (onDeleteSelectionEdge s k i e)) = makeSnapshot s ∧
    (undoHistory (onDeleteSelectionEdge s k i e)).history = s.history ++ [makeSnapshot s] := by
  have hhist : (onDeleteSelectionEdge s k i e).history =
      (s.history ++ [makeSnapshot s]) ++ [makeSnapshot s] := by
    cases k
    all_goals simp only [onDeleteSelectionEdge, deleteEdge, pushHistory, makeSnapshot]
    all_goals split_ifs <;> rfl
  have h := undoHistory_concat _ _ _ hhist
  exact ⟨by rw [hhist]; simp, h.1, h.2.1⟩

/-- C10 counterexample: on a concrete four-vertex lot the edge deletion
changes the scene, yet a single undo already restores the pre-deletion
persistent state, so reverting the deletion does not require two undo
operations. -/
theorem deleteSelectionEdge_single_undo_counterexample :
    (onDeleteSelectionEdge stateA EntityKind.lot 0 0).lots ≠ stateA.lots ∧
    makeSnapshot (undoHistory (onDeleteSelectionEdge stateA EntityKind.lot 0 0)) =
      makeSnapshot stateA := by
  constructor
  · decide
  · decide

/-- C4: deleting a selected edge removes the successor vertex at index
(edgeIndex+1) mod n; with n > 3 vertices this yields the (n-1)-vertex
polygon with that vertex erased, while a result below three vertices
removes the whole entity (lot or internal road), and for the boundary
empties it and marks it open. -/
theorem deleteEdge_successor_vertex :
    (∀ (s : AppState) (i e : ℕ) (lo : Lot),
        s.lots[i]? = some lo → 3 ≤ lo.polygon.length →
        (deleteEdge s EntityKind.lot i e).lots =
          (if 3 < lo.polygon.length
           then s.lots.set i { lo with polygon := lo.polygon.eraseIdx ((e + 1) % lo.polygon.length) }
           else s.lots.eraseIdx i) ∧
        (lo.polygon.eraseIdx ((e + 1) % lo.polygon.length)).length = lo.polygon.length - 1) ∧
    (∀ (s : AppState) (i e : ℕ) (r : InternalRoad),
        s.internalRoads[i]? = some r → 3 ≤ r.polygon.length →
        (deleteEdge s EntityKind.internal i e).internalRoads =
          (if 3 < r.polygon.length
           then s.internalRoads.set i { r with polygon := r.polygon.eraseIdx ((e + 1) % r.polygon.length) }
           else s.internalRoads.eraseIdx i) ∧
        (r.polygon.eraseIdx ((e + 1) % r.polygon.length)).length = r.polygon.length - 1) ∧
    (∀ (s : AppState) (e : ℕ), 3 ≤ s.boundary.length →
        (3 < s.boundary.length →
          (deleteEdge s EntityKind.boundary 0 e).boundary =
            s.boundary.eraseIdx ((e + 1) % s.boundary.length) ∧
          (deleteEdge s EntityKind.boundary 0 e).boundaryClosed = true) ∧
        (s.boundary.length = 3 →
          (deleteEdge s EntityKind.boundary 0 e).boundary = [] ∧
          (deleteEdge s EntityKind.boundary 0 e).boundaryClosed = false)) := by
  refine ⟨?_, ?_, ?_⟩
  · intro s i e lo hget h3
    have hmod : (e + 1) % lo.polygon.length < lo.polygon.length := Nat.mod_lt _ (by omega)
    have hlen : (lo.polygon.eraseIdx ((e + 1) % lo.polygon.length)).length =
        lo.polygon.length - 1 := by
      rw [List.length_eraseIdx]
      simp [hmod]
    refine ⟨?_, hlen⟩
    simp only [deleteEdge, pushHistory, deleteEdgeLots, hget]
    rw [if_neg (by omega)]
    rw [hlen]
    by_cases h4 : 3 < lo.polygon.length
    · rw [if_neg (by omega), if_pos h4]
    · rw [if_pos (by omega), if_neg h4]
  · intro s i e r hget h3
    have hmod : (e + 1) % r.polygon.length < r.polygon.length := Nat.mod_lt _ (by omega)
    have hlen : (r.polygon.eraseIdx ((e + 1) % r.polygon.length)).length =
        r.polygon.length - 1 := by
      rw [List.length_eraseIdx]
      simp [hmod]
    refine ⟨?_, hlen⟩
    simp only [deleteEdge, pushHistory, deleteEdgeRoads, hget]
    rw [if_neg (by omega)]
    rw [hlen]
    by_cases h4 : 3 < r.polygon.length
    · rw [if_neg (by omega), if_pos h4]
    · rw [if_pos (by omega), if_neg h4]
  · intro s e h3
    have hmod : (e + 1) % s.boundary.length < s.boundary.length := Nat.mod_lt _ (by omega)
    have hlen : (s.boundary.eraseIdx ((e + 1) % s.boundary.length)).length =
        s.boundary.length - 1 := by
      rw [List.length_eraseIdx]
      simp [hmod]
    constructor
    · intro h4
      simp only [deleteEdge, pushHistory]
      rw [if_neg (by omega), if_neg (by omega)]
      exact ⟨rfl, rfl⟩
    · intro h4
      simp only [deleteEdge, pushHistory]
      rw [if_neg (by omega), if_pos (by omega)]
      exact ⟨rfl, rfl⟩

/-- C4 witness: the three parts of the deletion claim instantiated on a
concrete state with a four-vertex lot, a three-vertex internal road and a
three-vertex boundary. -/
theorem deleteEdge_successor_vertex_witness :
    (stateA.lots[0]? = some ⟨some "L9", [(0, 0), (4, 0), (4, 4), (0, 4)]⟩ ∧
     3 ≤ ([(0, 0), (4, 0), (4, 4), (0, 4)] : List Pt).length ∧
     (deleteEdge stateA EntityKind.lot 0 0).lots =
       (if 3 < ([(0, 0), (4, 0), (4, 4), (0, 4)] : List Pt).length
        then stateA.lots.set 0 ⟨some "L9", ([(0, 0), (4, 0), (4, 4), (0, 4)] : List Pt).eraseIdx ((0 + 1) % 4)⟩
        else stateA.lots.eraseIdx 0)) ∧
    (stateA.internalRoads[0]? = some ⟨"R9", [(0, 0), (1, 0), (0, 1)], none⟩ ∧
     3 ≤ ([(0, 0), (1, 0), (0, 1)] : List Pt).length ∧
     (deleteEdge stateA EntityKind.internal 0 0).internalRoads =
       (if 3 < ([(0, 0), (1, 0), (0, 1)] : List Pt).length
        then stateA.internalRoads.set 0 ⟨"R9", ([(0, 0), (1, 0), (0, 1)] : List Pt).eraseIdx ((0 + 1) % 3), none⟩
        else stateA.internalRoads.eraseIdx 0)) ∧
    (3 ≤ stateA.boundary.length ∧
     (deleteEdge stateA EntityKind.boundary 0 1).boundary = [] ∧
     (deleteEdge stateA EntityKind.boundary 0 1).boundaryClosed = false) := by
  refine ⟨⟨by decide, by decide, ?_⟩, ⟨by decide, by decide, ?_⟩, by decide, ?_, ?_⟩
  · exact (deleteEdge_successor_vertex.1 stateA 0 0
      ⟨some "L9", [(0, 0), (4, 0), (4, 4), (0, 4)]⟩ (by decide) (by decide)).1
  · exact (deleteEdge_successor_vertex.2.1 stateA 0 0
      ⟨"R9", [(0, 0), (1, 0), (0, 1)], none⟩ (by decide) (by decide)).1
  · exact ((deleteEdge_successor_vertex.2.2 stateA 1 (by decide)).2 (by decide)).1
  · exact ((deleteEdge_successor_vertex.2.2 stateA 1 (by decide)).2 (by decide)).2

/-- C1: for a lot polygon with at least three vertices, the frontage
resolver returns the road_id of the first internal road (in list order)
whose edge-touch or tolerance test succeeds, whatever the boundary and the
public roads are. -/
theorem frontRoad_internal_first (lotPoly : List Pt) (ctx : FrontageCtx) (tol : ℚ)
    (r : InternalRoad) (h3 : 3 ≤ lotPoly.length)
    (hfind : ctx.internalRoads.find? (internalMatch (edgesFromPolygon lotPoly true) tol) = some r) :
    computeFrontRoadForLot lotPoly ctx tol = some r.road_id := by
  unfold computeFrontRoadForLot
  rw [if_neg (by omega)]
  simp only [hfind]

/-- C3: when the boundary is closed with at least three vertices and no
internal road matches, the resolver returns the road_id of the first public
road whose public-frontage arc (the shorter boundary walk between the
vertices nearest to its first two entry points) passes the edge-touch or
tolerance test, and none when no public road does. -/
theorem frontRoad_public_arc (lotPoly : List Pt) (ctx : FrontageCtx) (tol : ℚ)
    (h3 : 3 ≤ lotPoly.length)
    (hClosed : ctx.boundaryClosed = true)
    (hB : 3 ≤ ctx.boundary.length)
    (hNoInt : ctx.internalRoads.find? (internalMatch (edgesFromPolygon lotPoly true) tol) = none) :
    computeFrontRoadForLot lotPoly ctx tol =
      (ctx.publicRoads.find? (publicMatch (edgesFromPolygon lotPoly true) ctx.boundary tol)).map
        (fun pr => pr.road_id) := by
  unfold computeFrontRoadForLot
  rw [if_neg (by omega)]
  simp only [hNoInt, hClosed]
  rw [if_pos (by simp [hB])]
  cases hp : ctx.publicRoads.find? (publicMatch (edgesFromPolygon lotPoly true) ctx.boundary tol) <;>
    simp [hp]

/-- C1 witness: the triangle lotA touches the internal road roadA along a
shared edge and is assigned "R1" although the public road pubA's frontage
arc (the bottom boundary edge) is nearby. -/
theorem frontRoad_internal_first_witness :
    3 ≤ lotA.length ∧
    ctxA.internalRoads.find? (internalMatch (edgesFromPolygon lotA true) 0) = some roadA ∧
    computeFrontRoadForLot lotA ctxA 0 = some "R1" := by
  have hseg : segmentsIntersectOrTouch (0, 0) (2, 0) (0, 0) (2, 0) = true := by
    norm_num [segmentsIntersectOrTouch, orient, onSegment, EPS9]
  have hlotEdges : edgesFromPolygon lotA true =
      [((0, 0), (2, 0)), ((2, 0), (0, 2)), ((0, 2), (0, 0))] := by
    norm_num [edgesFromPolygon, lotA]
  have hroadEdges : edgesFromPolygon roadA.polygon true =
      [((0, 0), (2, 0)), ((2, 0), (2, -2)), ((2, -2), (0, 0))] := by
    norm_num [edgesFromPolygon, roadA]
  have htouch : internalMatch (edgesFromPolygon lotA true) 0 roadA = true := by
    rw [internalMatch, hlotEdges, hroadEdges]
    simp only [touchPred, List.any_cons, hseg, Bool.true_or, Bool.or_true]
  have hfind : ctxA.internalRoads.find? (internalMatch (edgesFromPolygon lotA true) 0) =
      some roadA := by
    have : ctxA.internalRoads = [roadA] := rfl
    rw [this, List.find?_cons_of_pos _ htouch]
  refine ⟨by norm_num [lotA], hfind, ?_⟩
  have h := frontRoad_internal_first lotA ctxA 0 roadA (by norm_num [lotA]) hfind
  simpa [roadA] using h

/-- C3 witness: with the closed square boundary, no internal road, and the
public road pubA entering at the first two boundary vertices, the lot lotB
lying on the bottom boundary edge is assigned "P1"; the shorter walk from
vertex 0 to vertex 1 is the single bottom edge. -/
theorem frontRoad_public_arc_witness :
    3 ≤ lotB.length ∧
    ctxB.boundaryClosed = true ∧
    3 ≤ ctxB.boundary.length ∧
    ctxB.internalRoads.find? (internalMatch (edgesFromPolygon lotB true) 0) = none ∧
    computeFrontRoadForLot lotB ctxB 0 = some "P1" := by
  have hlotEdges : edgesFromPolygon lotB true =
      [((2, 0), (8, 0)), ((8, 0), (8, 5)), ((8, 5), (2, 5)), ((2, 5), (2, 0))] := by
    norm_num [edgesFromPolygon, lotB]
  have hiA : nearestBoundaryIndex (0, 0) ctxB.boundary = 0 := by
    norm_num [nearestBoundaryIndex, nearestGo, dist2, ctxB]
  have hiB : nearestBoundaryIndex (10, 0) ctxB.boundary = 1 := by
    norm_num [nearestBoundaryIndex, nearestGo, dist2, ctxB]
  have hsegsAB : pathSegsBetweenIndices ctxB.boundary 0 1 = [((0, 0), (10, 0))] := by
    norm_num [pathSegsBetweenIndices, pathSegsGo, ctxB]
  have hsegsBA : pathSegsBetweenIndices ctxB.boundary 1 0 =
      [((10, 0), (10, 10)), ((10, 10), (0, 10)), ((0, 10), (0, 0))] := by
    norm_num [pathSegsBetweenIndices, pathSegsGo, ctxB]
  have h100 : Real.sqrt 100 = 10 := by
    rw [show (100 : ℝ) = 10 ^ 2 by norm_num, Real.sqrt_sq (by norm_num : (0:ℝ) ≤ 10)]
  have hlenAB : pathLen [((0, 0), (10, 0))] = 10 := by
    simp only [pathLen, List.map_cons, List.map_nil, List.sum_cons, List.sum_nil]
    push_cast
    norm_num [h100]
  have hlenBA : pathLen [((10, 0), (10, 10)), ((10, 10), (0, 10)), ((0, 10), (0, 0))] = 30 := by
    simp only [pathLen, List.map_cons, List.map_nil, List.sum_cons, List.sum_nil]
    push_cast
    norm_num [h100]
  have hpub : publicFrontageSegs ctxB.boundary pubA = some [((0, 0), (10, 0))] := by
    rw [publicFrontageSegs]
    show (match pubA.entry_points with
      | e0 :: e1 :: _ => _
      | _ => none) = _
    have hep : pubA.entry_points = [(0, 0), (10, 0)] := rfl
    rw [hep]
    simp only [hiA, hiB]
    rw [if_neg (by norm_num)]
    simp only [Int.toNat_zero, Int.toNat_one, hsegsAB, hsegsBA, hlenAB, hlenBA]
    rw [if_pos (by norm_num)]
  have hseg2 : segmentsIntersectOrTouch (2, 0) (8, 0) (0, 0) (10, 0) = true := by
    norm_num [segmentsIntersectOrTouch, orient, onSegment, EPS9]
  have hpm : publicMatch (edgesFromPolygon lotB true) ctxB.boundary 0 pubA = true := by
    rw [publicMatch, hpub, hlotEdges]
    simp only [touchPred, List.any_cons, hseg2, Bool.true_or, Bool.or_true]
  have hfindPub : ctxB.publicRoads.find?
      (publicMatch (edgesFromPolygon lotB true) ctxB.boundary 0) = some pubA := by
    have : ctxB.publicRoads = [pubA] := rfl
    rw [this, List.find?_cons_of_pos _ hpm]
  have h := frontRoad_public_arc lotB ctxB 0 (by norm_num [lotB]) rfl (by norm_num [ctxB]) rfl
  refine ⟨by norm_num [lotB], rfl, by norm_num [ctxB], rfl, ?_⟩
  rw [h, hfindPub]
  rfl

/-- C2 (amended): when a line candidate is accepted, the committed point is
the vertex snap applied to whichever of the line and grid candidates is
closer to the axis-locked pointer position (the post-axis-lock aligned
point, which equals the raw pointer when axis lock is inactive); a tie
between the two distances favors the line candidate, which is rounded to
two decimals when chosen. -/
theorem previewPoint_candidate_choice (P : PreviewEnv) (raw0 proj : Pt)
    (hproj : snapToNearestSegment (alignedPt P raw0) (previewSegments P) (P.lineTol * P.avgUP) =
      some proj) :
    computePreviewPoint P raw0 =
      snapToPools
        (if dist2 (alignedPt P raw0) proj ≤ dist2 (alignedPt P raw0) (gridPt P raw0)
         then round2Pt proj else gridPt P raw0)
        (previewPools P) (P.snapTol * P.avgUP) := by
  have hne : (previewSegments P).isEmpty = false := by
    cases hs : previewSegments P with
    | nil => rw [hs] at hproj; simp [snapToNearestSegment] at hproj
    | cons a l => rfl
  simp only [computePreviewPoint, hne, Bool.false_eq_true, if_false, hproj]

/-- C2 witness: the choice rule instantiated where the line candidate is
strictly closer than the grid candidate. -/
theorem previewPoint_candidate_choice_witness :
    snapToNearestSegment (alignedPt envA (2/5, 0)) (previewSegments envA)
      (envA.lineTol * envA.avgUP) = some (0, 0) ∧
    computePreviewPoint envA (2/5, 0) =
      snapToPools
        (if dist2 (alignedPt envA (2/5, 0)) (0, 0) ≤
            dist2 (alignedPt envA (2/5, 0)) (gridPt envA (2/5, 0))
         then round2Pt (0, 0) else gridPt envA (2/5, 0))
        (previewPools envA) (envA.snapTol * envA.avgUP) := by
  have halign : alignedPt envA (2/5, 0) = (2/5, 0) := by
    norm_num [alignedPt, previewPrev, envA]
  have hsegs : previewSegments envA = [((0, -5), (0, 5))] := by
    norm_num [previewSegments, collectSegments, edgesFromPolygon, envA]
  have hproj : snapToNearestSegment (alignedPt envA (2/5, 0)) (previewSegments envA)
      (envA.lineTol * envA.avgUP) = some (0, 0) := by
    rw [halign, hsegs]
    norm_num [snapToNearestSegment, pointSegProjection, dist2, sqrtLE, EPS12, envA]
  exact ⟨hproj, previewPoint_candidate_choice envA (2/5, 0) (0, 0) hproj⟩

/-- C2 counterexample, in two parts.  First, with the strict unit grid and
the vertical boundary segment of envA, the pointer (1/2, 0) has the grid
candidate (1,0) and the line candidate (0,0) at the same distance 1/2, and
the committed point is the line candidate (0,0), not the grid candidate
that the claim's tie-break would produce.  Second, in envB with axis lock
active on the pointer (2.3, 2.4), the line candidate (2, 2.4) is strictly
closer to the pre-axis-lock pointer than the grid candidate (0, 2), yet
the committed point is the grid candidate, because the code measures both
distances from the post-axis-lock point (0, 2.4). -/
theorem previewPoint_tie_counterexample :
    (alignedPt envA (1/2, 0) = (1/2, 0) ∧
     gridPt envA (1/2, 0) = (1, 0) ∧
     snapToNearestSegment (1/2, 0) (previewSegments envA) (envA.lineTol * envA.avgUP) =
       some (0, 0) ∧
     dist2 (1/2, 0) (0, 0) = dist2 (1/2, 0) (1, 0) ∧
     computePreviewPoint envA (1/2, 0) = (0, 0) ∧
     snapToPools (1, 0) (previewPools envA) (envA.snapTol * envA.avgUP) = (1, 0) ∧
     ((0, 0) : Pt) ≠ (1, 0)) ∧
    (alignedPt envB (23/10, 12/5) = (0, 12/5) ∧
     gridPt envB (23/10, 12/5) = (0, 2) ∧
     snapToNearestSegment (0, 12/5) (previewSegments envB) (envB.lineTol * envB.avgUP) =
       some (2, 12/5) ∧
     dist2 (23/10, 12/5) (2, 12/5) < dist2 (23/10, 12/5) (0, 2) ∧
     computePreviewPoint envB (23/10, 12/5) = (0, 2) ∧
     snapToPools (round2Pt (2, 12/5)) (previewPools envB) (envB.snapTol * envB.avgUP) =
       (2, 12/5) ∧
     ((0, 2) : Pt) ≠ (2, 12/5)) := by
  constructor
  · have halign : alignedPt envA (1/2, 0) = (1/2, 0) := by
      norm_num [alignedPt, previewPrev, envA]
    have hsegs : previewSegments envA = [((0, -5), (0, 5))] := by
      norm_num [previewSegments, collectSegments, edgesFromPolygon, envA]
    have hgrid : gridPt envA (1/2, 0) = (1, 0) := by
      rw [gridPt, halign]
      norm_num [snapToGrid, jsRound, round2, envA]
    have hproj : snapToNearestSegment (1/2, 0) (previewSegments envA)
        (envA.lineTol * envA.avgUP) = some (0, 0) := by
      rw [hsegs]
      norm_num [snapToNearestSegment, pointSegProjection, dist2, sqrtLE, EPS12, envA]
    have hpools : previewPools envA = [[(0, -5), (0, 5)]] := by
      norm_num [previewPools, envA]
    have hne : (previewSegments envA).isEmpty = false := by
      rw [hsegs]; rfl
    have hchoose : computePreviewPoint envA (1/2, 0) = (0, 0) := by
      simp only [computePreviewPoint, hne, Bool.false_eq_true, if_false, halign, hproj]
      rw [hgrid, if_pos (by norm_num [dist2]), hpools]
      norm_num [snapToPools, round2Pt, round2, dist2, sqrtLE, envA]
    refine ⟨halign, hgrid, hproj, by norm_num [dist2], hchoose, ?_, by decide⟩
    rw [hpools]
    norm_num [snapToPools, dist2, sqrtLE, envA]
  · have habs1 : |(12 : ℚ)/5| = 12/5 := abs_of_nonneg (by norm_num)
    have habs2 : |(23 : ℚ)/10| = 23/10 := abs_of_nonneg (by norm_num)
    have hmode : (Mode.lot = Mode.select) = False := eq_false (by decide)
    have halignB : alignedPt envB (23/10, 12/5) = (0, 12/5) := by
      norm_num [alignedPt, previewPrev, axisAlign, envB, habs1, habs2, hmode]
    have hsegsB : previewSegments envB = [((2, 0), (2, 5))] := by
      norm_num [previewSegments, collectSegments, edgesFromPolygon, envB]
    have hgridB : gridPt envB (23/10, 12/5) = (0, 2) := by
      rw [gridPt, halignB]
      norm_num [snapToGrid, jsRound, round2, envB]
    have hprojB : snapToNearestSegment (0, 12/5) (previewSegments envB)
        (envB.lineTol * envB.avgUP) = some (2, 12/5) := by
      rw [hsegsB]
      norm_num [snapToNearestSegment, pointSegProjection, dist2, sqrtLE, EPS12, envB]
    have hpoolsB : previewPools envB = [[(2, 0), (2, 5)]] := by
      norm_num [previewPools, envB]
    have hneB : (previewSegments envB).isEmpty = false := by
      rw [hsegsB]; rfl
    have hchooseB : computePreviewPoint envB (23/10, 12/5) = (0, 2) := by
      simp only [computePreviewPoint, hneB, Bool.false_eq_true, if_false, halignB, hprojB]
      rw [hgridB, if_neg (by norm_num [dist2]), hpoolsB]
      norm_num [snapToPools, dist2, sqrtLE, envB]
    refine ⟨halignB, hgridB, hprojB, by norm_num [dist2], hchooseB, ?_, by decide⟩
    rw [hpoolsB]
    norm_num [snapToPools, round2Pt, round2, dist2, sqrtLE, envB]

/-- C9 (amended): convexHull strips a duplicate closing point first; for
inputs with at most two points after stripping it returns exactly those
points reordered into lexicographic (x, then y) order, hence unchanged for
zero or one point (and for two points only when already sorted). -/
theorem convexHull_small_inputs (pts : List Pt)
    (h : (stripClosingDuplicate pts).length ≤ 2) :
    convexHull pts = List.insertionSort lexLe (stripClosingDuplicate pts) ∧
    List.Perm (convexHull pts) (stripClosingDuplicate pts) ∧
    ((stripClosingDuplicate pts).length ≤ 1 → convexHull pts = stripClosingDuplicate pts) := by
  have hmain : convexHull pts = List.insertionSort lexLe (stripClosingDuplicate pts) := by
    rcases hl : stripClosingDuplicate pts with _ | ⟨a, _ | ⟨b, _ | ⟨c, t⟩⟩⟩
    · simp [convexHull, hl, List.insertionSort]
    · simp [convexHull, hl, List.insertionSort, List.orderedInsert]
    · simp only [convexHull, hl, List.length_cons, List.length_nil]
      rw [if_neg (by omega)]
      by_cases hab : lexLe a b
      · simp [List.insertionSort, List.orderedInsert, hab, hullExtend]
      · simp [List.insertionSort, List.orderedInsert, hab, hullExtend]
    · rw [hl] at h
      simp at h
  refine ⟨hmain, ?_, ?_⟩
  · rw [hmain]
    exact List.perm_insertionSort _ _
  · intro h1
    rw [hmain]
    rcases hl : stripClosingDuplicate pts with _ | ⟨a, _ | ⟨b, t⟩⟩
    · simp [List.insertionSort]
    · simp [List.insertionSort, List.orderedInsert]
    · rw [hl] at h1
      simp at h1

/-- C9 witness: the two-point input below is its own strip result and the
hull returns it in lexicographic order. -/
theorem convexHull_small_inputs_witness :
    (stripClosingDuplicate [((1 : ℚ), (0 : ℚ)), (0, 0)]).length ≤ 2 ∧
    (convexHull [((1 : ℚ), (0 : ℚ)), (0, 0)] =
      List.insertionSort lexLe (stripClosingDuplicate [((1 : ℚ), (0 : ℚ)), (0, 0)]) ∧
     List.Perm (convexHull [((1 : ℚ), (0 : ℚ)), (0, 0)]) (stripClosingDuplicate [((1 : ℚ), (0 : ℚ)), (0, 0)]) ∧
     ((stripClosingDuplicate [((1 : ℚ), (0 : ℚ)), (0, 0)]).length ≤ 1 →
      convexHull [((1 : ℚ), (0 : ℚ)), (0, 0)] = stripClosingDuplicate [((1 : ℚ), (0 : ℚ)), (0, 0)])) := by
  have hstrip : stripClosingDuplicate [((1 : ℚ), (0 : ℚ)), (0, 0)] =
      [((1 : ℚ), (0 : ℚ)), (0, 0)] := by
    norm_num [stripClosingDuplicate, ptsEqual, EPS9]
  exact ⟨by rw [hstrip]; norm_num,
    convexHull_small_inputs [((1 : ℚ), (0 : ℚ)), (0, 0)] (by rw [hstrip]; norm_num)⟩

/-- C9 counterexample: a two-point input (already free of a closing
duplicate) that convexHull does not return unchanged: the points come back
lexicographically sorted. -/
theorem convexHull_two_points_counterexample :
    stripClosingDuplicate [((1 : ℚ), (0 : ℚ)), (0, 0)] = [((1 : ℚ), (0 : ℚ)), (0, 0)] ∧
    convexHull [((1 : ℚ), (0 : ℚ)), (0, 0)] = [(0, 0), (1, 0)] ∧
    convexHull [((1 : ℚ), (0 : ℚ)), (0, 0)] ≠ [((1 : ℚ), (0 : ℚ)), (0, 0)] := by
  have hstrip : stripClosingDuplicate [((1 : ℚ), (0 : ℚ)), (0, 0)] =
      [((1 : ℚ), (0 : ℚ)), (0, 0)] := by
    norm_num [stripClosingDuplicate, ptsEqual, EPS9]
  have hhull : convexHull [((1 : ℚ), (0 : ℚ)), (0, 0)] = [(0, 0), (1, 0)] := by
    simp only [convexHull, hstrip, List.length_cons, List.length_nil]
    rw [if_neg (by omega)]
    norm_num [List.insertionSort, List.orderedInsert, lexLe, hullExtend]
  exact ⟨hstrip, hhull, by rw [hhull]; decide⟩

/-- Filtering serialized lots by front road and reading their ids equals
filtering the lot infos by front and reading their ids, for any conversion
preserving front and id. -/
theorem lotOut_filter_map (L : List LotInfo) (rid : String) (f : LotInfo → LotOut)
    (hf : ∀ li, (f li).front_road = li.front ∧ (f li).lot_id = li.id) :
    ((L.map f).filter fun lo => lo.front_road = some rid).map (fun lo => lo.lot_id) =
      (L.filter fun li => li.front = some rid).map fun li => li.id := by
  induction L with
  | nil => rfl
  | cons a t ih =>
      simp only [List.map_cons, List.filter_cons, (hf a).1, (hf a).2]
      by_cases hfr : a.front = some rid
      · simp [hfr, ih, (hf a).2]
      · simp [hfr, ih]

/-- C6: in one exported document, every road's road_to_lot_mapping (public
roads of input.roads and internal roads of output.internal_roads alike)
equals the list of exported lot_ids of exactly the lots whose exported
front_road is that road's road_id. -/
theorem export_mapping_consistent (sc : Scene) :
    (∀ ro ∈ (exportJSON sc).roads,
        ro.road_to_lot_mapping =
          (((exportJSON sc).lots.filter fun lo => lo.front_road = some ro.road_id).map
            fun lo => lo.lot_id)) ∧
    (∀ ro ∈ (exportJSON sc).internal_roads,
        ro.road_to_lot_mapping =
          (((exportJSON sc).lots.filter fun lo => lo.front_road = some ro.road_id).map
            fun lo => lo.lot_id)) := by
  constructor
  · intro ro hro
    simp only [exportJSON, List.mem_map] at hro
    obtain ⟨pr, hpr, rfl⟩ := hro
    simp only [exportJSON]
    rw [lotOut_filter_map]
    intro li
    exact ⟨rfl, rfl⟩
  · intro ro hro
    simp only [exportJSON, List.mem_map] at hro
    obtain ⟨r, hr, rfl⟩ := hro
    simp only [exportJSON]
    rw [lotOut_filter_map]
    intro li
    exact ⟨rfl, rfl⟩

/-- C6 witness: in the export of sceneD the internal road "R1" is
serialized with its normalized closed ring and an empty mapping, which
equals the id list of the (zero) exported lots fronting it. -/
theorem export_mapping_consistent_witness :
    (⟨"R1", [(2, -2), (2, 0), (0, 0), (2, -2)], false, 6, some true, []⟩ : InternalRoadOut) ∈
      (exportJSON sceneD).internal_roads ∧
    (⟨"R1", [(2, -2), (2, 0), (0, 0), (2, -2)], false, 6, some true, []⟩ :
        InternalRoadOut).road_to_lot_mapping =
      (((exportJSON sceneD).lots.filter fun lo =>
          lo.front_road = some (⟨"R1", [(2, -2), (2, 0), (0, 0), (2, -2)], false, 6, some true,
            []⟩ : InternalRoadOut).road_id).map fun lo => lo.lot_id) := by
  have hstrip : stripClosingDuplicate ([(0, 0), (2, 0), (2, -2)] : List Pt) =
      [(0, 0), (2, 0), (2, -2)] := by
    norm_num [stripClosingDuplicate, ptsEqual, EPS9]
  have hcent : polygonCentroid ([(0, 0), (2, 0), (2, -2)] : List Pt) = (4/3, -2/3) := by
    norm_num [polygonCentroid, centroidWrapSums, centroidChainSums, cross2, meanPt, EPS12]
  have hsort : List.insertionSort (angRadLe (4/3, -2/3)) ([(0, 0), (2, 0), (2, -2)] : List Pt) =
      [(2, -2), (2, 0), (0, 0)] := by
    norm_num [List.insertionSort, List.orderedInsert, angRadLe, angLt, angEq, angClass,
      crossV, dist2]
  have harea : signedArea ([(2, -2), (2, 0), (0, 0)] : List Pt) = 2 := by
    norm_num [signedArea, wrapCrossSum, chainCrossSum, cross2]
  have hnorm : normalizeCCW ([(0, 0), (2, 0), (2, -2)] : List Pt) = [(2, -2), (2, 0), (0, 0)] := by
    simp only [normalizeCCW, hstrip, List.length_cons, List.length_nil]
    rw [if_neg (by omega), hcent, hsort, harea]
    norm_num
  have hclosed : ensureClosedLoop ([(2, -2), (2, 0), (0, 0)] : List Pt) =
      [(2, -2), (2, 0), (0, 0), (2, -2)] := by
    norm_num [ensureClosedLoop, ptsEqual, EPS9]
  have hroads : (exportJSON sceneD).internal_roads =
      [⟨"R1", [(2, -2), (2, 0), (0, 0), (2, -2)], false, 6, some true, []⟩] := by
    simp only [exportJSON, exportLotInfos, sceneD]
    norm_num [hnorm, hclosed, -Prod.mk_zero_zero]
  have hmem : (⟨"R1", [(2, -2), (2, 0), (0, 0), (2, -2)], false, 6, some true, []⟩ :
      InternalRoadOut) ∈ (exportJSON sceneD).internal_roads := by
    rw [hroads]
    exact List.mem_singleton.mpr rfl
  exact ⟨hmem, (export_mapping_consistent sceneD).2 _ hmem⟩

/-- The cross term is antisymmetric. -/
theorem cross2_swap (a b : Pt) : cross2 a b = -cross2 b a := by
  unfold cross2
  ring

/-- A point equals itself within the epsilon point equality. -/
theorem ptsEqual_self (p : Pt) : ptsEqual p p = true := by
  simp [ptsEqual, EPS9]

/-- Appending one point to a nonempty chain adds the cross term from the
old last point to it. -/
theorem chainCrossSum_concat (l : List Pt) (x : Pt) (h : l ≠ []) :
    chainCrossSum (l ++ [x]) = chainCrossSum l + cross2 (l.getLastD (0, 0)) x := by
  induction l with
  | nil => exact absurd rfl h
  | cons a t ih =>
      cases t with
      | nil => simp [chainCrossSum]
      | cons b r =>
          have hbr : (b :: r : List Pt) ≠ [] := by simp
          calc chainCrossSum ((a :: b :: r) ++ [x])
              = cross2 a b + chainCrossSum ((b :: r) ++ [x]) := by
                simp [chainCrossSum]
            _ = cross2 a b + (chainCrossSum (b :: r) + cross2 ((b :: r).getLastD (0, 0)) x) := by
                rw [ih hbr]
            _ = chainCrossSum (a :: b :: r) + cross2 ((a :: b :: r).getLastD (0, 0)) x := by
                simp [chainCrossSum, List.getLastD_cons]
                ring

/-- The head default of a reversed list is its last default. -/
theorem headD_reverse (l : List Pt) (d : Pt) : l.reverse.headD d = l.getLastD d := by
  rw [List.headD_eq_head?, List.getLastD_eq_getLast?, List.head?_reverse]

/-- The last default of a reversed list is its head default. -/
theorem getLastD_reverse (l : List Pt) (d : Pt) : l.reverse.getLastD d = l.headD d := by
  rw [List.headD_eq_head?, List.getLastD_eq_getLast?, List.getLast?_reverse]

/-- Reversing a chain negates its cross sum. -/
theorem chainCrossSum_reverse (l : List Pt) : chainCrossSum l.reverse = -chainCrossSum l := by
  induction l with
  | nil => simp [chainCrossSum]
  | cons a t ih =>
      cases t with
      | nil => simp [chainCrossSum]
      | cons b r =>
          have hbr : ((b :: r : List Pt)).reverse ≠ [] := by simp
          calc chainCrossSum ((a :: b :: r) : List Pt).reverse
              = chainCrossSum ((b :: r : List Pt).reverse ++ [a]) := by simp
            _ = chainCrossSum ((b :: r : List Pt).reverse) +
                  cross2 ((b :: r : List Pt).reverse.getLastD (0, 0)) a := by
                rw [chainCrossSum_concat _ _ hbr]
            _ = -chainCrossSum (b :: r) + cross2 b a := by
                rw [ih, getLastD_reverse]
                simp [List.headD_cons]
            _ = -chainCrossSum ((a :: b :: r) : List Pt) := by
                simp [chainCrossSum, cross2]

/-- The cyclic cross sum of a nonempty list in head/last form. -/
theorem wrapCrossSum_eq (l : List Pt) (h : l ≠ []) :
    wrapCrossSum l = chainCrossSum l + cross2 (l.getLastD (0, 0)) (l.headD (0, 0)) := by
  cases l with
  | nil => exact absurd rfl h
  | cons a t => rfl

/-- Reversing a polygon negates its cyclic cross sum. -/
theorem wrapCrossSum_reverse (l : List Pt) : wrapCrossSum l.reverse = -wrapCrossSum l := by
  cases l with
  | nil => simp [wrapCrossSum]
  | cons a t =>
      have h1 : ((a :: t : List Pt)).reverse ≠ [] := by simp
      have h2 : (a :: t : List Pt) ≠ [] := by simp
      rw [wrapCrossSum_eq _ h1, wrapCrossSum_eq _ h2, chainCrossSum_reverse,
        headD_reverse, getLastD_reverse]
      rw [cross2_swap ((a :: t : List Pt).headD (0, 0)) ((a :: t : List Pt).getLastD (0, 0))]
      ring

/-- Reversing a polygon negates its signed area. -/
theorem signedArea_reverse (l : List Pt) : signedArea l.reverse = -signedArea l := by
  by_cases h : l.length < 3
  · rw [signedArea, signedArea, if_pos (by simpa using h), if_pos h]
    ring
  · rw [signedArea, signedArea, if_neg (by simpa using h), if_neg h, wrapCrossSum_reverse]
    ring

/-- The polygon normalizeCCW returns never has negative signed area. -/
theorem normalizeCCW_area_nonneg (x : List Pt) : 0 ≤ signedArea (normalizeCCW x) := by
  rw [normalizeCCW]
  by_cases h : (stripClosingDuplicate x).length < 3
  · rw [if_pos h, signedArea, if_pos h]
  · rw [if_neg h]
    by_cases hA :
        0 < signedArea (List.insertionSort
          (angRadLe (polygonCentroid (stripClosingDuplicate x))) (stripClosingDuplicate x))
    · rw [if_pos hA]
      exact le_of_lt hA
    · rw [if_neg hA, signedArea_reverse]
      linarith

/-- Closing a nonempty loop with its own head leaves the cyclic cross sum
unchanged. -/
theorem wrapCrossSum_concat_head (l : List Pt) (h : l ≠ []) :
    wrapCrossSum (l ++ [l.headD (0, 0)]) = wrapCrossSum l := by
  have hne : (l ++ [l.headD (0, 0)] : List Pt) ≠ [] := by simp
  rw [wrapCrossSum_eq _ hne, wrapCrossSum_eq _ h, chainCrossSum_concat _ _ h,
    List.getLastD_concat]
  cases l with
  | nil => exact absurd rfl h
  | cons a t =>
      simp only [List.headD_cons, List.cons_append, List.headD_cons]
      simp [cross2]

/-- ensureClosedLoop makes head and last agree up to the epsilon point
equality (for at least three points). -/
theorem ensureClosedLoop_closed (l : List Pt) (h3 : 3 ≤ l.length) :
    ptsEqual ((ensureClosedLoop l).headD (0, 0)) ((ensureClosedLoop l).getLastD (0, 0)) = true := by
  rw [ensureClosedLoop, if_neg (by omega)]
  by_cases heq : ptsEqual (l.headD (0, 0)) (l.getLastD (0, 0)) = true
  · rw [if_pos heq]
    exact heq
  · rw [if_neg heq]
    cases l with
    | nil => simp at h3
    | cons a t =>
        rw [List.getLastD_concat]
        have hh : (((a :: t : List Pt)) ++ [((a :: t : List Pt)).headD (0, 0)]).headD (0, 0) = a :=
          rfl
        rw [hh]
        have hh2 : ((a :: t : List Pt)).headD (0, 0) = a := rfl
        rw [hh2]
        exact ptsEqual_self a

/-- ensureClosedLoop preserves the signed area (for at least three
points). -/
theorem ensureClosedLoop_area (l : List Pt) (h3 : 3 ≤ l.length) :
    signedArea (ensureClosedLoop l) = signedArea l := by
  rw [ensureClosedLoop, if_neg (by omega)]
  by_cases heq : ptsEqual (l.headD (0, 0)) (l.getLastD (0, 0)) = true
  · rw [if_pos heq]
  · rw [if_neg heq]
    have hne : l ≠ [] := by
      cases l
      · simp at h3
      · simp
    rw [signedArea, signedArea, if_neg (by simp; omega), if_neg (by omega),
      wrapCrossSum_concat_head l hne]

/-- Any polygon serialized as normalizeCCW then conditional ensureClosedLoop
that ends up with at least three vertices is epsilon-closed and has
nonnegative signed area. -/
theorem serializedPoly_ok (x q : List Pt)
    (hq : q = (if 3 ≤ (normalizeCCW x).length then ensureClosedLoop (normalizeCCW x)
               else normalizeCCW x))
    (h3 : 3 ≤ q.length) :
    ptsEqual (q.headD (0, 0)) (q.getLastD (0, 0)) = true ∧ 0 ≤ signedArea q := by
  by_cases h : 3 ≤ (normalizeCCW x).length
  · rw [if_pos h] at hq
    subst hq
    exact ⟨ensureClosedLoop_closed _ h,
      (ensureClosedLoop_area _ h).symm ▸ normalizeCCW_area_nonneg x⟩
  · rw [if_neg h] at hq
    subst hq
    omega

/-- C7 (amended): every polygon serialized by exportJSON with at least
three vertices is explicitly closed in the sense that its last point
repeats its first point within the 1e-9 point-equality tolerance, and its
signed area is nonnegative (the angular sort of a degenerate vertex set
can leave it zero rather than positive). -/
theorem export_polygons_closed_ccw (sc : Scene) (q : List Pt)
    (hq : q ∈ exportPolygons (exportJSON sc)) (h3 : 3 ≤ q.length) :
    ptsEqual (q.headD (0, 0)) (q.getLastD (0, 0)) = true ∧ 0 ≤ signedArea q := by
  simp only [exportPolygons, exportJSON, exportLotInfos, List.mem_cons, List.mem_append,
    List.mem_map] at hq
  rcases hq with hab | ⟨li, hli, hpoly⟩
  · rcases hab with hb | ⟨a, ha, hpoly⟩
    · exact serializedPoly_ok sc.boundary q hb h3
    · obtain ⟨r, hr, hfr⟩ := ha
      rw [← hfr] at hpoly
      exact serializedPoly_ok r.polygon q hpoly.symm h3
  · obtain ⟨il, hil, hfi⟩ := hli
    obtain ⟨ip, hip, hfp⟩ := hil
    rw [← hfi] at hpoly
    rw [← hfp] at hpoly
    exact serializedPoly_ok ip.2.polygon q hpoly.symm h3

/-- C7 witness: exporting the triangular boundary of sceneB serializes the
ring [(0,0),(4,0),(0,4),(0,0)], which is closed and has positive (hence
nonnegative) signed area. -/
theorem export_polygons_closed_ccw_witness :
    ([(0, 0), (4, 0), (0, 4), (0, 0)] : List Pt) ∈ exportPolygons (exportJSON sceneB) ∧
    3 ≤ ([(0, 0), (4, 0), (0, 4), (0, 0)] : List Pt).length ∧
    (ptsEqual (([(0, 0), (4, 0), (0, 4), (0, 0)] : List Pt).headD (0, 0))
        (([(0, 0), (4, 0), (0, 4), (0, 0)] : List Pt).getLastD (0, 0)) = true ∧
     0 ≤ signedArea ([(0, 0), (4, 0), (0, 4), (0, 0)] : List Pt)) := by
  have hstrip : stripClosingDuplicate ([(0, 0), (4, 0), (0, 4)] : List Pt) =
      [(0, 0), (4, 0), (0, 4)] := by
    norm_num [stripClosingDuplicate, ptsEqual, EPS9]
  have hcent : polygonCentroid ([(0, 0), (4, 0), (0, 4)] : List Pt) = (4/3, 4/3) := by
    norm_num [polygonCentroid, centroidWrapSums, centroidChainSums, cross2, meanPt, EPS12]
  have hsort : List.insertionSort (angRadLe (4/3, 4/3)) ([(0, 0), (4, 0), (0, 4)] : List Pt) =
      [(0, 0), (4, 0), (0, 4)] := by
    norm_num [List.insertionSort, List.orderedInsert, angRadLe, angLt, angEq, angClass,
      crossV, dist2]
  have harea : signedArea ([(0, 0), (4, 0), (0, 4)] : List Pt) = 8 := by
    norm_num [signedArea, wrapCrossSum, chainCrossSum, cross2]
  have hnorm : normalizeCCW ([(0, 0), (4, 0), (0, 4)] : List Pt) = [(0, 0), (4, 0), (0, 4)] := by
    simp only [normalizeCCW, hstrip, List.length_cons, List.length_nil]
    rw [if_neg (by omega), hcent, hsort, harea]
    norm_num
  have hclosed : ensureClosedLoop ([(0, 0), (4, 0), (0, 4)] : List Pt) =
      [(0, 0), (4, 0), (0, 4), (0, 0)] := by
    norm_num [ensureClosedLoop, ptsEqual, EPS9]
  have hbound : (exportJSON sceneB).boundary = [(0, 0), (4, 0), (0, 4), (0, 0)] := by
    simp only [exportJSON, sceneB]
    norm_num [hnorm, hclosed, -Prod.mk_zero_zero]
  have hmem : ([(0, 0), (4, 0), (0, 4), (0, 0)] : List Pt) ∈
      exportPolygons (exportJSON sceneB) := by
    rw [exportPolygons, hbound]
    exact List.mem_cons_self _ _
  exact ⟨hmem, by norm_num,
    export_polygons_closed_ccw sceneB _ hmem (by norm_num)⟩

/-- C7 counterexample: exporting sceneC's degenerate collinear lot
serializes the ring [(0,0),(2,0),(1,0),(0,0)], which has at least three
vertices but signed area 0, not the positive signed area of a
counter-clockwise polygon. -/
theorem export_polygons_ccw_counterexample :
    ((exportJSON sceneC).lots.map fun lo => lo.polygon) = [[(0, 0), (2, 0), (1, 0), (0, 0)]] ∧
    3 ≤ ([(0, 0), (2, 0), (1, 0), (0, 0)] : List Pt).length ∧
    ¬ (0 < signedArea ([(0, 0), (2, 0), (1, 0), (0, 0)] : List Pt)) := by
  have hstrip : stripClosingDuplicate ([(0, 0), (1, 0), (2, 0)] : List Pt) =
      [(0, 0), (1, 0), (2, 0)] := by
    norm_num [stripClosingDuplicate, ptsEqual, EPS9]
  have hcent : polygonCentroid ([(0, 0), (1, 0), (2, 0)] : List Pt) = (1, 0) := by
    norm_num [polygonCentroid, centroidWrapSums, centroidChainSums, cross2, meanPt, EPS12]
  have hsort : List.insertionSort (angRadLe (1, 0)) ([(0, 0), (1, 0), (2, 0)] : List Pt) =
      [(1, 0), (2, 0), (0, 0)] := by
    norm_num [List.insertionSort, List.orderedInsert, angRadLe, angLt, angEq, angClass,
      crossV, dist2]
  have harea : signedArea ([(1, 0), (2, 0), (0, 0)] : List Pt) = 0 := by
    norm_num [signedArea, wrapCrossSum, chainCrossSum, cross2]
  have hnorm : normalizeCCW ([(0, 0), (1, 0), (2, 0)] : List Pt) = [(0, 0), (2, 0), (1, 0)] := by
    simp only [normalizeCCW, hstrip, List.length_cons, List.length_nil]
    rw [if_neg (by omega), hcent, hsort, harea]
    norm_num
  have hclosed : ensureClosedLoop ([(0, 0), (2, 0), (1, 0)] : List Pt) =
      [(0, 0), (2, 0), (1, 0), (0, 0)] := by
    norm_num [ensureClosedLoop, ptsEqual, EPS9]
  refine ⟨?_, by norm_num, ?_⟩
  · simp only [exportJSON, exportLotInfos, sceneC]
    norm_num [hnorm, hclosed, -Prod.mk_zero_zero]
  · norm_num [signedArea, wrapCrossSum, chainCrossSum, cross2]

/-- Lower bound on the scale factor sqrt 2. -/
theorem sqrt_two_gt : (1.414 : ℝ) < Real.sqrt 2 := by
  nlinarith [Real.sq_sqrt (show (0:ℝ) ≤ 2 by norm_num), Real.sqrt_nonneg 2]

/-- Upper bound on the scale factor sqrt 2. -/
theorem sqrt_two_lt : Real.sqrt 2 < 1.4143 := by
  nlinarith [Real.sq_sqrt (show (0:ℝ) ≤ 2 by norm_num), Real.sqrt_nonneg 2]

/-- The two rounded coordinates of the scaled square: 5 - 5*sqrt 2 rounds
to -2.07. -/
theorem round2R_low : round2R (5 - 5 * Real.sqrt 2) = -207/100 := by
  have h : ⌊(5 - 5 * Real.sqrt 2) * 100 + 1/2⌋ = (-207 : ℤ) := by
    rw [Int.floor_eq_iff]
    constructor
    · push_cast
      nlinarith [sqrt_two_lt]
    · push_cast
      nlinarith [sqrt_two_gt]
  rw [round2R, h]
  norm_num

/-- The two rounded coordinates of the scaled square: 5 + 5*sqrt 2 rounds
to 12.07. -/
theorem round2R_high : round2R (5 + 5 * Real.sqrt 2) = 1207/100 := by
  have h : ⌊(5 + 5 * Real.sqrt 2) * 100 + 1/2⌋ = (1207 : ℤ) := by
    rw [Int.floor_eq_iff]
    constructor
    · push_cast
      nlinarith [sqrt_two_gt]
    · push_cast
      nlinarith [sqrt_two_lt]
  rw [round2R, h]
  norm_num

/-- scalePolygonToArea on the canonical square scales about (5,5) by
sqrt 2 and rounds, giving exactly square100Scaled. -/
theorem scaleSquare_eval :
    scalePolygonToArea square100 200 = square100Scaled ∧
    scalePolygonToArea square100 200 =
      square100.map fun pt => transformPoint pt (Real.sqrt 2) 5 5 := by
  have hA : shoelaceArea square100 = 100 := by
    norm_num [shoelaceArea, wrapCrossSum, chainCrossSum, cross2, square100]
  have hc : polygonCentroid square100 = (5, 5) := by
    norm_num [polygonCentroid, centroidWrapSums, centroidChainSums, cross2, meanPt, EPS12,
      square100]
  have hs : Real.sqrt (((200 : ℚ) : ℝ) / ((shoelaceArea square100 : ℚ) : ℝ)) = Real.sqrt 2 := by
    rw [hA]
    norm_num
  have hmap : scalePolygonToArea square100 200 =
      square100.map fun pt => transformPoint pt (Real.sqrt 2) 5 5 := by
    simp only [scalePolygonToArea]
    rw [if_neg (by rw [hA]; norm_num), hs, hc]
  have e1 : ((5 : ℚ) : ℝ) + Real.sqrt 2 * (((0 : ℚ) : ℝ) - ((5 : ℚ) : ℝ)) =
      5 - 5 * Real.sqrt 2 := by
    push_cast
    ring
  have e2 : ((5 : ℚ) : ℝ) + Real.sqrt 2 * (((10 : ℚ) : ℝ) - ((5 : ℚ) : ℝ)) =
      5 + 5 * Real.sqrt 2 := by
    push_cast
    ring
  have heval : (square100.map fun pt => transformPoint pt (Real.sqrt 2) 5 5) =
      square100Scaled := by
    simp only [square100, List.map_cons, List.map_nil, transformPoint]
    simp only [e1, e2, round2R_low, round2R_high]
    norm_num [square100Scaled]
  exact ⟨hmap.trans heval, hmap⟩

/-- C8 (amended): scalePolygonToArea on the canonical square of area 100
with target 200 yields the polygon whose vertices are scaled about the
centroid (5,5) by sqrt(200/100) and then rounded to two decimals as by
toFixed(2); its shoelace area is 499849/2500 = 199.9396, within 0.1 of the
target but not within 1e-6. -/
theorem scaleToArea_rounded :
    scalePolygonToArea square100 200 = square100Scaled ∧
    scalePolygonToArea square100 200 =
      (square100.map fun pt => transformPoint pt (Real.sqrt 2) 5 5) ∧
    shoelaceArea square100Scaled = 499849/2500 ∧
    |shoelaceArea (scalePolygonToArea square100 200) - 200| ≤ 1/10 := by
  have hw : wrapCrossSum square100Scaled = 499849/1250 := by
    norm_num [wrapCrossSum, chainCrossSum, cross2, square100Scaled]
  have harea : shoelaceArea square100Scaled = 499849/2500 := by
    rw [shoelaceArea, if_neg (by norm_num [square100Scaled]), hw,
      abs_of_nonneg (by norm_num : (0:ℚ) ≤ 499849/1250)]
    norm_num
  refine ⟨scaleSquare_eval.1, scaleSquare_eval.2, harea, ?_⟩
  rw [scaleSquare_eval.1, harea]
  rw [show (499849 : ℚ)/2500 - 200 = -(151/2500) by norm_num, abs_neg,
    abs_of_nonneg (by norm_num : (0:ℚ) ≤ 151/2500)]
  norm_num

/-- C8 counterexample: the shoelace area of the scaled square is 199.9396,
which differs from the target 200 by 0.0604, far beyond the claimed 1e-6
tolerance. -/
theorem scaleToArea_tolerance_counterexample :
    scalePolygonToArea square100 200 = square100Scaled ∧
    ¬ (|shoelaceArea (scalePolygonToArea square100 200) - 200| ≤ 1/1000000) := by
  have hw : wrapCrossSum square100Scaled = 499849/1250 := by
    norm_num [wrapCrossSum, chainCrossSum, cross2, square100Scaled]
  have harea : shoelaceArea square100Scaled = 499849/2500 := by
    rw [shoelaceArea, if_neg (by norm_num [square100Scaled]), hw,
      abs_of_nonneg (by norm_num : (0:ℚ) ≤ 499849/1250)]
    norm_num
  refine ⟨scaleSquare_eval.1, ?_⟩
  rw [scaleSquare_eval.1, harea]
  rw [show (499849 : ℚ)/2500 - 200 = -(151/2500) by norm_num, abs_neg,
    abs_of_nonneg (by norm_num : (0:ℚ) ≤ 151/2500)]
  norm_num

end LandSubdiv
